import Mathlib

/-!
Shallow embedding of the `adncrab` RSS reader (`src/main.rs`) and proofs
about its specification.

The program is a single-shot console RSS client:
* `remove_tags` strips HTML tags (regex `<[^>]*>`) and then replaces each
  literal `&nbsp;` with a space;
* `RssReader::new` builds a fixed category table (ids 1..8 mapping to feed
  URLs);
* `fetch_rss_feed` performs an HTTP GET, rejects non-2xx responses, and
  parses the body as RSS XML;
* `display_feed` prints the channel header and, per item, title, link,
  sanitized description, publish date and a separator line;
* `run` reads one trimmed line from the console, exits on `0`, looks up the
  category, fetches and displays.

Strings are modelled as Lean `String`/`List Char`; the stateful console and
network are modelled by explicit inputs (the input line, the HTTP response)
and explicit outputs (the list of printed lines, the process outcome).
-/

deriving instance DecidableEq for Except

/-! ### Text sanitizer (`RssReader::remove_tags`) -/

/-- One scanning step of the regex `<[^>]*>` replacement (`replace_all` with
the empty string).  The first argument is `none` while scanning outside a
candidate tag, and `some acc` (accumulated characters, reversed, starting
with `'<'`) while inside a candidate `<...` span that has not yet seen `'>'`.
If the input ends while inside a candidate span, that span had no closing
`'>'`, hence no regex match: its characters are emitted unchanged. -/
def dropTagsGo : Option (List Char) → List Char → List Char
  | none, [] => []
  | some acc, [] => acc.reverse
  | none, c :: rest =>
    if c = '<' then dropTagsGo (some [c]) rest else c :: dropTagsGo none rest
  | some acc, c :: rest =>
    if c = '>' then dropTagsGo none rest else dropTagsGo (some (c :: acc)) rest

/-- Removal of every leftmost, non-overlapping match of `<[^>]*>`, as done by
`self.html_tag_regex.replace_all(text, "")`. -/
def dropTags (l : List Char) : List Char := dropTagsGo none l

/-- Replacement of every literal occurrence of `&nbsp;` by one ASCII space,
as done by `clean_text.replace("&nbsp;", " ")` (left-to-right,
non-overlapping). -/
def replaceNbsp : List Char → List Char
  | '&' :: 'n' :: 'b' :: 's' :: 'p' :: ';' :: rest => ' ' :: replaceNbsp rest
  | c :: rest => c :: replaceNbsp rest
  | [] => []

/-- Source `RssReader::remove_tags`: regex tag removal followed by `&nbsp;`
replacement. -/
def remove_tags (text : String) : String := String.mk (replaceNbsp (dropTags text.data))

/-- Whether a character list contains the literal substring `&nbsp;`. -/
def containsNbsp : List Char → Bool
  | '&' :: 'n' :: 'b' :: 's' :: 'p' :: ';' :: _ => true
  | _ :: rest => containsNbsp rest
  | [] => false

/-- Whether a character list contains the character `>`. -/
def hasGt (l : List Char) : Bool := l.any (fun c => c = '>')

/-- Whether a character list contains `<` or `>`. -/
def hasAngle (l : List Char) : Bool := l.any (fun c => c = '<' || c = '>')

/-- Predicate `noTag l` holds when the regex `<[^>]*>` has no match in `l`: after the
first `'<'` (if any) there is no `'>'`. -/
def noTag : List Char → Bool
  | [] => true
  | c :: rest => if c = '<' then !(hasGt rest) else noTag rest

/-- Strings built only from well-formed `<tag>` spans (whose interior has no
angle brackets) interleaved with text free of angle brackets. -/
inductive WellFormedTags : List Char → Prop
  | nil : WellFormedTags []
  | text {c : Char} {l : List Char} :
      c ≠ '<' → c ≠ '>' → WellFormedTags l → WellFormedTags (c :: l)
  | tag {inner l : List Char} :
      (∀ c ∈ inner, c ≠ '<' ∧ c ≠ '>') → WellFormedTags l →
      WellFormedTags ('<' :: inner ++ '>' :: l)

/-! ### Feed model (`Rss`, `Channel`, `Item`) -/

/-- Struct `Item`: a single article in the RSS feed. -/
structure Item where
  title : String
  link : String
  description : String
  pub_date : String
deriving DecidableEq

/-- Struct `Channel`: the main content container in an RSS feed. -/
structure Channel where
  title : String
  description : String
  link : String
  items : List Item
deriving DecidableEq

/-- Struct `Rss`: the root XML structure of an RSS feed. -/
structure Rss where
  channel : Channel
deriving DecidableEq

/-! ### Display (`RssReader::display_feed`)

Each `println!` call is modelled as one element of the resulting list of
printed strings, embedded newlines included. -/

/-- The fixed-width separator printed after every item (80 dashes). -/
def separatorLine : String :=
  "--------------------------------------------------------------------------------"

/-- The five lines printed for one item: title, link, sanitized description,
publish date (with trailing blank line) and the separator. -/
def itemLines (item : Item) : List String :=
  ["Title: " ++ item.title,
   "Link: " ++ item.link,
   "Description: " ++ remove_tags item.description,
   "Published: " ++ item.pub_date ++ "\n",
   separatorLine]

/-- Source `RssReader::display_feed`: channel title, link and description, then the
item blocks in document order. -/
def display_feed (rss : Rss) : List String :=
  ("\nTitle: " ++ rss.channel.title) ::
  ("Link: " ++ rss.channel.link) ::
  ("Description: " ++ rss.channel.description ++ "\n") ::
  rss.channel.items.flatMap itemLines

/-! ### Feed fetcher (`RssReader::fetch_rss_feed`)

The network is modelled by the response value: `Except.error cause` when the
HTTP round trip itself fails (reqwest transport/timeout error propagated by
`?`), `Except.ok` with a status code and body otherwise.  The body type and
body parser are parameters: the source parses the body text with the
external `serde_xml_rs` library. -/

/-- The error taxonomy of the fetch path. -/
inductive FetchError where
  | transport (cause : String)
  | unexpectedStatus (code : Nat)
  | parseError (detail : String)
deriving DecidableEq

/-- An HTTP response as seen by `fetch_rss_feed`: numeric status code and
body. -/
structure HttpResponse (β : Type) where
  status : Nat
  body : β
deriving DecidableEq

/-- Predicate mirroring `reqwest::StatusCode::is_success`: the 2xx range. -/
def statusIsSuccess (code : Nat) : Bool := 200 ≤ code && code < 300

/-- Source `RssReader::fetch_rss_feed`: propagate transport errors, reject non-2xx
status codes without touching the body, otherwise parse the body. -/
def fetch_rss_feed {β : Type} (parseBody : β → Except String Rss)
    (response : Except String (HttpResponse β)) : Except FetchError Rss :=
  match response with
  | .error cause => .error (.transport cause)
  | .ok r =>
    if statusIsSuccess r.status then
      match parseBody r.body with
      | .ok rss => .ok rss
      | .error detail => .error (.parseError detail)
    else .error (.unexpectedStatus r.status)

/-! ### XML decoding model

Modelled from the spec: the XML deserialization itself is performed by the
external `serde_xml_rs` crate, which is not part of this repository.  The
spec (§4.3, §6) fixes its observable contract: a body that is not
well-formed XML fails with a parse error, and the derived `Rss`/`Channel`/
`Item` structures make `title`, `link`, `description` and `pubDate`
required fields, so an item missing any of them fails parsing. -/

/-- Modelled from the spec: a well-formed XML element (name, child elements,
text content), the input shape handed to the deserializer. -/
inductive Xml where
  | elem (name : String) (children : List Xml) (text : String)

/-- The tag name of an element. -/
def Xml.name : Xml → String
  | .elem n _ _ => n

/-- The child elements of an element. -/
def Xml.children : Xml → List Xml
  | .elem _ cs _ => cs

/-- The text content of an element. -/
def Xml.textOf : Xml → String
  | .elem _ _ t => t

/-- First child element with the given name. -/
def findChild (n : String) : List Xml → Option Xml
  | [] => none
  | x :: rest => if x.name = n then some x else findChild n rest

/-- Text content of the first child with the given name, when present. -/
def childText (n : String) (cs : List Xml) : Option String :=
  (findChild n cs).map Xml.textOf

/-- Modelled from the spec: a required (non-optional) field of a derived
struct — absence is a deserialization error. -/
def requiredField (n : String) (cs : List Xml) : Except String String :=
  match childText n cs with
  | some t => .ok t
  | none => .error ("missing field " ++ n)

/-- Modelled from the spec: deserialization of one `Item`; all four fields
are required. -/
def decodeItem (x : Xml) : Except String Item :=
  match requiredField "title" x.children with
  | .error e => .error e
  | .ok t =>
    match requiredField "link" x.children with
    | .error e => .error e
    | .ok l =>
      match requiredField "description" x.children with
      | .error e => .error e
      | .ok d =>
        match requiredField "pubDate" x.children with
        | .error e => .error e
        | .ok p => .ok ⟨t, l, d, p⟩

/-- Modelled from the spec: deserialization of the item list; the first
failing item fails the whole parse. -/
def decodeItems : List Xml → Except String (List Item)
  | [] => .ok []
  | x :: rest =>
    match decodeItem x with
    | .error e => .error e
    | .ok i =>
      match decodeItems rest with
      | .error e => .error e
      | .ok is => .ok (i :: is)

/-- Modelled from the spec: deserialization of the `Channel`; `title`,
`description` and `link` are required, and the items are the `item`
children in document order. -/
def decodeChannel (x : Xml) : Except String Channel :=
  match requiredField "title" x.children with
  | .error e => .error e
  | .ok t =>
    match requiredField "description" x.children with
    | .error e => .error e
    | .ok d =>
      match requiredField "link" x.children with
      | .error e => .error e
      | .ok l =>
        match decodeItems (x.children.filter (fun c => c.name = "item")) with
        | .error e => .error e
        | .ok items => .ok ⟨t, d, l, items⟩

/-- Modelled from the spec: deserialization of the root; the document must be
an `rss` element with a `channel` child. -/
def decodeRss (x : Xml) : Except String Rss :=
  if x.name = "rss" then
    match findChild "channel" x.children with
    | some ch => (decodeChannel ch).map Rss.mk
    | none => .error "missing field channel"
  else .error "expected rss root element"

/-- Modelled from the spec: the whole body parse; `none` stands for a body
that is not well-formed XML. -/
def parse_rss_body (doc : Option Xml) : Except String Rss :=
  match doc with
  | none => .error "malformed XML"
  | some x => decodeRss x

/-! ### Console input (`RssReader::get_category_input`) -/

/-- Rust `char::is_whitespace` (the Unicode `White_Space` property), used by
`str::trim`. -/
def isRustWhitespace (c : Char) : Bool :=
  c.toNat = 0x09 || c.toNat = 0x0A || c.toNat = 0x0B || c.toNat = 0x0C ||
  c.toNat = 0x0D || c.toNat = 0x20 || c.toNat = 0x85 || c.toNat = 0xA0 ||
  c.toNat = 0x1680 || (0x2000 ≤ c.toNat && c.toNat ≤ 0x200A) ||
  c.toNat = 0x2028 || c.toNat = 0x2029 || c.toNat = 0x202F ||
  c.toNat = 0x205F || c.toNat = 0x3000

/-- Rust `str::trim`: remove leading and trailing whitespace. -/
def rustTrim (l : List Char) : List Char :=
  ((l.dropWhile isRustWhitespace).reverse.dropWhile isRustWhitespace).reverse

/-- Numeric value of a decimal digit string. -/
def digitsToNat (l : List Char) : Nat :=
  l.foldl (fun acc c => acc * 10 + (c.toNat - 48)) 0

/-- Rust `u32::from_str` on an (already sign-stripped) digit string: at least
one character, decimal digits only, value within `u32` range. -/
def parseU32Digits (l : List Char) : Option Nat :=
  if l = [] then none
  else if l.all Char.isDigit then
    if digitsToNat l < 4294967296 then some (digitsToNat l) else none
  else none

/-- Rust `str::parse::<u32>`: an optional leading `+` sign followed by
decimal digits; a `-` sign is not accepted for an unsigned type. -/
def parseU32 : List Char → Option Nat
  | [] => none
  | '+' :: rest => parseU32Digits rest
  | l => parseU32Digits l

/-- The error taxonomy of the console session. -/
inductive SessionError where
  | invalidSelection
  | categoryNotFound
  | fetchFailed (e : FetchError)
deriving DecidableEq

/-- Source `RssReader::get_category_input`: read one line (passed here as `input`,
trailing newline included), trim it, and parse it as a `u32`. -/
def get_category_input (input : String) : Except SessionError Nat :=
  match parseU32 (rustTrim input.data) with
  | some n => .ok n
  | none => .error .invalidSelection

/-! ### Category registry and session (`RssReader::new`, `RssReader::run`) -/

/-- The fixed category table inserted into the `HashMap` in
`RssReader::new`, in insertion order.  The keys are distinct, so
association-list lookup agrees with `HashMap` lookup. -/
def category_urls : List (Nat × String) :=
  [(1, "https://www.adnkronos.com/RSS_PrimaPagina.xml"),
   (2, "https://www.adnkronos.com/RSS_Ultimora.xml"),
   (3, "https://www.adnkronos.com/RSS_Politica.xml"),
   (4, "https://www.adnkronos.com/RSS_Esteri.xml"),
   (5, "https://www.adnkronos.com/RSS_Cronaca.xml"),
   (6, "https://www.adnkronos.com/RSS_Economia.xml"),
   (7, "https://www.adnkronos.com/RSS_Finanza.xml"),
   (8, "https://www.adnkronos.com/RSS_Sport.xml")]

/-- Lookup `self.category_urls.get(&category)`. -/
def lookupCategory (id : Nat) : Option String := category_urls.lookup id

/-- Outcome of one session: `process::exit(0)` on selection `0`, an error
propagated to `main` (printed to stderr, exit status 1), or a successful
display (the printed lines) followed by exit status 0. -/
inductive RunOutcome where
  | exitZero
  | errorExit (e : SessionError)
  | success (lines : List String)
deriving DecidableEq

/-- Source `RssReader::run`: read and parse the selection, exit immediately on `0`,
look up the category, fetch, display.  The registry and the fetcher are
passed explicitly so that (in)dependence of the outcome on them can be
stated. -/
def run (registry : Nat → Option String) (fetcher : String → Except FetchError Rss)
    (input : String) : RunOutcome :=
  match get_category_input input with
  | .error e => .errorExit e
  | .ok category =>
    if category = 0 then .exitZero
    else
      match registry category with
      | none => .errorExit .categoryNotFound
      | some url =>
        match fetcher url with
        | .error e => .errorExit (.fetchFailed e)
        | .ok rss => .success (display_feed rss)

/-! ### Concrete example values used in witness instantiations -/

/-- A sample item whose description carries HTML markup. -/
def exItem : Item := ⟨"t", "l", "<b>d</b>", "p"⟩

/-- A sample parsed feed with one item. -/
def exRss : Rss := ⟨⟨"T", "D", "L", [exItem]⟩⟩

/-- A sample XML item element with no `pubDate` child. -/
def exBadItem : Xml :=
  .elem "item"
    [.elem "title" [] "t", .elem "link" [] "l", .elem "description" [] "d"] ""

/-- A sample XML channel element containing the incomplete item. -/
def exBadChannel : Xml :=
  .elem "channel"
    [.elem "title" [] "T", .elem "description" [] "D", .elem "link" [] "L",
     exBadItem] ""

/-! ### Helper lemmas: tag removal -/

/-- Containment `hasGt` is invariant under reversal. -/
theorem hasGt_reverse (l : List Char) : hasGt l.reverse = hasGt l := by
  simp [hasGt]

/-- A list without `>` has no tag match at all. -/
theorem noTag_of_hasGt_false (l : List Char) (h : hasGt l = false) : noTag l = true := by
  induction l with
  | nil => rfl
  | cons c rest ih =>
    simp only [hasGt, List.any_cons, Bool.or_eq_false_iff] at h
    have hrest : hasGt rest = false := h.2
    by_cases hc : c = '<'
    · simp only [noTag, if_pos hc, Bool.not_eq_true']
      exact hrest
    · simp only [noTag, if_neg hc]
      exact ih hrest

/-- The output of the tag scanner has no remaining tag match, provided the
pending accumulator (if any) contains no `>`. -/
theorem dropTagsGo_noTag (l : List Char) :
    ∀ st : Option (List Char), (∀ acc, st = some acc → hasGt acc = false) →
    noTag (dropTagsGo st l) = true := by
  induction l with
  | nil =>
    intro st hst
    match st with
    | none => rfl
    | some acc =>
      have : hasGt acc = false := hst acc rfl
      simp only [dropTagsGo]
      exact noTag_of_hasGt_false _ (by rw [hasGt_reverse]; exact this)
  | cons c rest ih =>
    intro st hst
    match st with
    | none =>
      simp only [dropTagsGo]
      by_cases hc : c = '<'
      · simp only [hc, if_pos rfl]
        refine ih (some ['<']) ?_
        intro acc hacc
        cases hacc
        decide
      · rw [if_neg hc]
        simp only [noTag, if_neg hc]
        exact ih none (by intro acc h; cases h)
    | some acc =>
      have hacc : hasGt acc = false := hst acc rfl
      simp only [dropTagsGo]
      by_cases hc : c = '>'
      · rw [if_pos hc]
        exact ih none (by intro acc h; cases h)
      · rw [if_neg hc]
        have hca : hasGt (c :: acc) = false := by
          simp only [hasGt, List.any_cons, Bool.or_eq_false_iff]
          exact ⟨by simpa using hc, by simpa [hasGt] using hacc⟩
        exact ih (some (c :: acc)) (by intro a ha; cases ha; exact hca)

/-- After tag removal there is no tag match left. -/
theorem dropTags_noTag (l : List Char) : noTag (dropTags l) = true :=
  dropTagsGo_noTag l none (by intro acc h; cases h)

/-- Scanning a `>`-free list inside a candidate span just flushes it at the
end of input. -/
theorem dropTagsGo_some_no_gt (l : List Char) :
    ∀ acc : List Char, hasGt l = false →
    dropTagsGo (some acc) l = acc.reverse ++ l := by
  induction l with
  | nil => intro acc _; simp [dropTagsGo]
  | cons c rest ih =>
    intro acc h
    simp [hasGt] at h
    simp only [dropTagsGo, if_neg h.1]
    rw [ih (c :: acc) (by simpa [hasGt] using h.2)]
    simp

/-- A list with no tag match is left unchanged by tag removal. -/
theorem dropTags_of_noTag (l : List Char) (h : noTag l = true) : dropTags l = l := by
  unfold dropTags
  induction l with
  | nil => rfl
  | cons c rest ih =>
    by_cases hc : c = '<'
    · subst hc
      have h' : hasGt rest = false := by simpa [noTag] using h
      simp only [dropTagsGo, if_pos rfl]
      rw [dropTagsGo_some_no_gt rest ['<'] h']
      rfl
    · simp only [noTag, if_neg hc] at h
      simp only [dropTagsGo, if_neg hc]
      rw [ih h]

/-! ### Helper lemmas: entity replacement -/

/-- Step equation of `replaceNbsp` when the head position does not start an
`&nbsp;` occurrence. -/
theorem replaceNbsp_cons (c : Char) (rest : List Char)
    (h : ∀ r, c = '&' → rest = 'n' :: 'b' :: 's' :: 'p' :: ';' :: r → False) :
    replaceNbsp (c :: rest) = c :: replaceNbsp rest := by
  rw [replaceNbsp.eq_def]
  split
  · rename_i r heq
    exfalso
    injection heq with h1 h2
    exact h r h1 h2
  · rename_i c' rest' hside heq
    injection heq with h1 h2
    subst h1
    subst h2
    rfl
  · rename_i heq
    exact List.noConfusion heq

/-- Step equation of `containsNbsp` when the head position does not start an
`&nbsp;` occurrence. -/
theorem containsNbsp_cons (c : Char) (rest : List Char)
    (h : ∀ r, c = '&' → rest = 'n' :: 'b' :: 's' :: 'p' :: ';' :: r → False) :
    containsNbsp (c :: rest) = containsNbsp rest := by
  rw [containsNbsp.eq_def]
  split
  · rename_i r heq
    exfalso
    injection heq with h1 h2
    exact h r h1 h2
  · rename_i c' rest' hside heq
    injection heq with h1 h2
    subst h1
    subst h2
    rfl
  · rename_i heq
    exact List.noConfusion heq

/-- Replacement `replaceNbsp` never introduces a character other than the space it
substitutes: any predicate false on the input and on `' '` stays false. -/
theorem replaceNbsp_any (p : Char → Bool) (hsp : p ' ' = false) (l : List Char)
    (h : l.any p = false) : (replaceNbsp l).any p = false := by
  induction l using replaceNbsp.induct with
  | case1 rest ih =>
    simp only [replaceNbsp, List.any_cons, Bool.or_eq_false_iff] at h ⊢
    exact ⟨hsp, ih h.2.2.2.2.2.2⟩
  | case2 c rest hside ih =>
    rw [replaceNbsp_cons c rest (by intro r hc hr; exact hside r hc hr)]
    simp only [List.any_cons, Bool.or_eq_false_iff] at h ⊢
    exact ⟨h.1, ih h.2⟩
  | case3 => exact h

/-- Replacement `replaceNbsp` preserves the absence of a tag match. -/
theorem replaceNbsp_noTag (l : List Char) (h : noTag l = true) :
    noTag (replaceNbsp l) = true := by
  induction l using replaceNbsp.induct with
  | case1 rest ih =>
    have hr : noTag rest = true := by simpa [noTag] using h
    simp only [replaceNbsp]
    simpa [noTag] using ih hr
  | case2 c rest hside ih =>
    rw [replaceNbsp_cons c rest (by intro r hc hr; exact hside r hc hr)]
    by_cases hc : c = '<'
    · have hg : hasGt rest = false := by simpa [noTag, hc] using h
      simp only [noTag, if_pos hc, Bool.not_eq_true']
      exact replaceNbsp_any _ (by decide) rest hg
    · simp only [noTag, if_neg hc] at h ⊢
      exact ih h
  | case3 => exact h

/-- A space-free pattern that prefixes the output of `replaceNbsp` already
prefixed its input: replacements only ever insert `' '`. -/
theorem replaceNbsp_leading_pat (pat : List Char) (hsp : ' ' ∉ pat) :
    ∀ l r : List Char, replaceNbsp l = pat ++ r → ∃ r', l = pat ++ r' := by
  induction pat with
  | nil => intro l r _; exact ⟨l, rfl⟩
  | cons p ps ih =>
    intro l r hl
    match l with
    | [] => exact absurd hl (by simp [replaceNbsp])
    | c :: rest =>
      by_cases hm : ∃ r6, c :: rest = '&' :: 'n' :: 'b' :: 's' :: 'p' :: ';' :: r6
      · obtain ⟨r6, h6⟩ := hm
        rw [h6] at hl
        simp only [replaceNbsp] at hl
        rw [List.cons_append] at hl
        have : ' ' = p := (List.cons.injEq _ _ _ _).mp hl |>.1
        exact absurd (this ▸ List.mem_cons_self p ps) hsp
      · rw [replaceNbsp_cons c rest (by
          intro r6 hc hr
          exact hm ⟨r6, by rw [hc, hr]⟩)] at hl
        rw [List.cons_append] at hl
        have h1 : c = p := (List.cons.injEq _ _ _ _).mp hl |>.1
        have h2 : replaceNbsp rest = ps ++ r := (List.cons.injEq _ _ _ _).mp hl |>.2
        obtain ⟨r', hr'⟩ := ih (fun hmem => hsp (List.mem_cons_of_mem p hmem)) rest r h2
        exact ⟨r', by rw [h1, hr', List.cons_append]⟩

/-- The output of `replaceNbsp` contains no `&nbsp;` occurrence. -/
theorem replaceNbsp_containsNbsp (l : List Char) :
    containsNbsp (replaceNbsp l) = false := by
  induction l using replaceNbsp.induct with
  | case1 rest ih =>
    simp only [replaceNbsp]
    rw [containsNbsp_cons ' ' (replaceNbsp rest) (by intro r hc _; exact absurd hc (by decide))]
    exact ih
  | case2 c rest hside ih =>
    rw [replaceNbsp_cons c rest (by intro r hc hr; exact hside r hc hr)]
    rw [containsNbsp_cons c (replaceNbsp rest) (by
      intro r hc hr
      obtain ⟨r', hr'⟩ := replaceNbsp_leading_pat ['n', 'b', 's', 'p', ';'] (by decide) rest r hr
      exact hside r' hc hr')]
    exact ih
  | case3 => rfl

/-- A list without `&nbsp;` occurrences is unchanged by `replaceNbsp`. -/
theorem replaceNbsp_of_not_contains (l : List Char) (h : containsNbsp l = false) :
    replaceNbsp l = l := by
  induction l using replaceNbsp.induct with
  | case1 rest ih => simp [containsNbsp] at h
  | case2 c rest hside ih =>
    rw [containsNbsp_cons c rest (by intro r hc hr; exact hside r hc hr)] at h
    rw [replaceNbsp_cons c rest (by intro r hc hr; exact hside r hc hr), ih h]
  | case3 => rfl

/-- Replacement `replaceNbsp` is idempotent. -/
theorem replaceNbsp_idem (l : List Char) :
    replaceNbsp (replaceNbsp l) = replaceNbsp l :=
  replaceNbsp_of_not_contains _ (replaceNbsp_containsNbsp l)

/-- The sanitized character stream has no remaining tag match. -/
theorem sanitize_data_noTag (l : List Char) :
    noTag (replaceNbsp (dropTags l)) = true :=
  replaceNbsp_noTag _ (dropTags_noTag l)

/-- Character-list level idempotence of the sanitizer. -/
theorem sanitize_data_idem (l : List Char) :
    replaceNbsp (dropTags (replaceNbsp (dropTags l))) = replaceNbsp (dropTags l) := by
  rw [dropTags_of_noTag _ (sanitize_data_noTag l)]
  exact replaceNbsp_idem _

/-- Scanning a candidate span whose remaining interior has no `>` and which
is closed by a `>` removes the whole span. -/
theorem dropTagsGo_skip (inner : List Char) :
    ∀ (acc l : List Char), (inner.any (fun c => c = '>')) = false →
    dropTagsGo (some acc) (inner ++ '>' :: l) = dropTagsGo none l := by
  induction inner with
  | nil =>
    intro acc l _
    simp [dropTagsGo]
  | cons i is ih =>
    intro acc l h
    simp only [List.any_cons, Bool.or_eq_false_iff] at h
    have hi : ¬ i = '>' := by simpa using h.1
    simp only [List.cons_append, dropTagsGo, if_neg hi]
    exact ih (i :: acc) l h.2

/-- Tag removal on a well-formed tag/text string leaves no angle bracket. -/
theorem dropTags_wellFormed (l : List Char) (h : WellFormedTags l) :
    hasAngle (dropTags l) = false := by
  induction h with
  | nil => rfl
  | @text c l' hlt hgt _ ih =>
    unfold dropTags at ih ⊢
    simp only [dropTagsGo, if_neg hlt]
    simp only [hasAngle, List.any_cons, Bool.or_eq_false_iff] at ih ⊢
    exact ⟨by simp [hlt, hgt], ih⟩
  | @tag inner l' hinner _ ih =>
    unfold dropTags at ih ⊢
    rw [List.cons_append]
    rw [show dropTagsGo none ('<' :: (inner ++ '>' :: l')) =
        dropTagsGo (some ['<']) (inner ++ '>' :: l') from rfl]
    rw [dropTagsGo_skip inner ['<'] l' (by
      simp only [List.any_eq_false]
      intro c hc
      simpa using (hinner c hc).2)]
    exact ih

/-- The full sanitizer leaves no angle bracket on well-formed tag/text
strings. -/
theorem sanitize_wellFormed (l : List Char) (h : WellFormedTags l) :
    hasAngle (replaceNbsp (dropTags l)) = false := by
  have h1 : hasAngle (dropTags l) = false := dropTags_wellFormed l h
  exact replaceNbsp_any _ (by decide) _ (by simpa [hasAngle] using h1)

/-! ### Helper lemmas: display and session -/

/-- Each item block has exactly five lines. -/
theorem itemLines_length (item : Item) : (itemLines item).length = 5 := rfl

/-- The concatenated item blocks have five lines per item. -/
theorem flatMap_itemLines_length (items : List Item) :
    (items.flatMap itemLines).length = 5 * items.length := by
  induction items with
  | nil => rfl
  | cons it rest ih =>
    simp only [List.flatMap_cons, List.length_append, itemLines_length, ih,
      List.length_cons]
    ring

/-- Indexing into the concatenated item blocks: line `j` of block `i`. -/
theorem flatMap_itemLines_getElem (items : List Item) :
    ∀ (i : Nat) (item : Item) (j : Nat), items[i]? = some item → j < 5 →
    (items.flatMap itemLines)[5 * i + j]? = (itemLines item)[j]? := by
  induction items with
  | nil => intro i item j h _; simp at h
  | cons it rest ih =>
    intro i item j h hj
    match i with
    | 0 =>
      simp only [List.getElem?_cons_zero, Option.some.injEq] at h
      subst h
      simp only [List.flatMap_cons, Nat.mul_zero, Nat.zero_add]
      rw [List.getElem?_append, if_pos (by rw [itemLines_length]; exact hj)]
    | i' + 1 =>
      simp only [List.getElem?_cons_succ] at h
      simp only [List.flatMap_cons]
      rw [List.getElem?_append_right (by rw [itemLines_length]; omega)]
      rw [show 5 * (i' + 1) + j - (itemLines it).length = 5 * i' + j by
        rw [itemLines_length]; omega]
      exact ih i' item j h hj

/-- Indexing into the displayed feed: line `j` of item block `i` sits at
offset `3 + 5 * i + j`. -/
theorem display_feed_getElem (rss : Rss) (i : Nat) (item : Item) (j : Nat)
    (h : rss.channel.items[i]? = some item) (hj : j < 5) :
    (display_feed rss)[3 + 5 * i + j]? = (itemLines item)[j]? := by
  show (display_feed rss)[3 + 5 * i + j]? = (itemLines item)[j]?
  simp only [display_feed]
  rw [show 3 + 5 * i + j = (5 * i + j) + 1 + 1 + 1 by omega]
  simp only [List.getElem?_cons_succ]
  exact flatMap_itemLines_getElem rss.channel.items i item j h hj

/-- Session `run` on a parsed selection of `0` exits immediately, independently of
registry and fetcher. -/
theorem run_zero (registry : Nat → Option String)
    (fetcher : String → Except FetchError Rss) (input : String)
    (h : get_category_input input = .ok 0) :
    run registry fetcher input = .exitZero := by
  simp [run, h]

/-- Session `run` on a selection that misses the registry fails with
`CategoryNotFound`, independently of the fetcher. -/
theorem run_miss (registry : Nat → Option String)
    (fetcher : String → Except FetchError Rss) (input : String) (n : Nat)
    (h : get_category_input input = .ok n) (hn : n ≠ 0)
    (hreg : registry n = none) :
    run registry fetcher input = .errorExit .categoryNotFound := by
  simp [run, h, hn, hreg]

/-- Session `run` propagates a fetch failure as a terminal error exit. -/
theorem run_fetch_error (registry : Nat → Option String)
    (fetcher : String → Except FetchError Rss) (input : String) (n : Nat)
    (url : String) (e : FetchError)
    (h : get_category_input input = .ok n) (hn : n ≠ 0)
    (hreg : registry n = some url) (hf : fetcher url = .error e) :
    run registry fetcher input = .errorExit (.fetchFailed e) := by
  simp [run, h, hn, hreg, hf]

/-- Session `run` on a successful fetch displays the feed. -/
theorem run_success (registry : Nat → Option String)
    (fetcher : String → Except FetchError Rss) (input : String) (n : Nat)
    (url : String) (rss : Rss)
    (h : get_category_input input = .ok n) (hn : n ≠ 0)
    (hreg : registry n = some url) (hf : fetcher url = .ok rss) :
    run registry fetcher input = .success (display_feed rss) := by
  simp [run, h, hn, hreg, hf]

/-! ### Helper lemmas: category registry -/

/-- Registry lookup characterized as a case split on the id. -/
theorem lookupCategory_eq (id : Nat) :
    lookupCategory id =
      if 1 ≤ id ∧ id ≤ 8 then (category_urls.lookup id) else none := by
  by_cases h : 1 ≤ id ∧ id ≤ 8
  · rw [if_pos h]
    rfl
  · rw [if_neg h]
    have h9 : id = 0 ∨ 9 ≤ id := by omega
    rcases h9 with h0 | h9
    · subst h0; decide
    · have e1 : (id == (1 : Nat)) = false := beq_eq_false_iff_ne.mpr (by omega)
      have e2 : (id == (2 : Nat)) = false := beq_eq_false_iff_ne.mpr (by omega)
      have e3 : (id == (3 : Nat)) = false := beq_eq_false_iff_ne.mpr (by omega)
      have e4 : (id == (4 : Nat)) = false := beq_eq_false_iff_ne.mpr (by omega)
      have e5 : (id == (5 : Nat)) = false := beq_eq_false_iff_ne.mpr (by omega)
      have e6 : (id == (6 : Nat)) = false := beq_eq_false_iff_ne.mpr (by omega)
      have e7 : (id == (7 : Nat)) = false := beq_eq_false_iff_ne.mpr (by omega)
      have e8 : (id == (8 : Nat)) = false := beq_eq_false_iff_ne.mpr (by omega)
      simp [lookupCategory, category_urls, List.lookup, e1, e2, e3, e4, e5, e6, e7, e8]

/-- Lookup succeeds exactly on ids 1 through 8. -/
theorem lookupCategory_isSome_iff (id : Nat) :
    (lookupCategory id).isSome = true ↔ (1 ≤ id ∧ id ≤ 8) := by
  constructor
  · intro h
    by_contra hn
    rw [lookupCategory_eq, if_neg hn] at h
    cases h
  · intro h
    rw [lookupCategory_eq, if_pos h]
    obtain ⟨h1, h8⟩ := h
    interval_cases id <;> decide

/-- Lookup misses on every id outside 1..8. -/
theorem lookupCategory_none (id : Nat) (h : ¬(1 ≤ id ∧ id ≤ 8)) :
    lookupCategory id = none := by
  rw [lookupCategory_eq, if_neg h]

/-! ### Helper lemmas: XML decoding model -/

/-- An item missing any of its four required fields fails to decode. -/
theorem decodeItem_missing (x : Xml)
    (h : childText "title" x.children = none ∨ childText "link" x.children = none ∨
      childText "description" x.children = none ∨ childText "pubDate" x.children = none) :
    ∃ d, decodeItem x = .error d := by
  unfold decodeItem requiredField
  cases h1 : childText "title" x.children with
  | none => exact ⟨_, rfl⟩
  | some t =>
    cases h2 : childText "link" x.children with
    | none => exact ⟨_, rfl⟩
    | some lk =>
      cases h3 : childText "description" x.children with
      | none => exact ⟨_, rfl⟩
      | some ds =>
        cases h4 : childText "pubDate" x.children with
        | none => exact ⟨_, rfl⟩
        | some p =>
          exfalso
          rcases h with h | h | h | h
          · rw [h1] at h; exact Option.noConfusion h
          · rw [h2] at h; exact Option.noConfusion h
          · rw [h3] at h; exact Option.noConfusion h
          · rw [h4] at h; exact Option.noConfusion h

/-- Decoding a list of items fails when any member fails. -/
theorem decodeItems_error (xs : List Xml)
    (h : ∃ x ∈ xs, ∃ d, decodeItem x = .error d) :
    ∃ d, decodeItems xs = .error d := by
  induction xs with
  | nil => simp at h
  | cons x rest ih =>
    obtain ⟨y, hy, dy, hdy⟩ := h
    cases hx : decodeItem x with
    | error e => exact ⟨e, by simp [decodeItems, hx]⟩
    | ok i =>
      rcases List.mem_cons.mp hy with heq | hmem
      · subst heq
        rw [hx] at hdy
        exact Except.noConfusion hdy
      · obtain ⟨d, hd⟩ := ih ⟨y, hmem, dy, hdy⟩
        exact ⟨d, by simp [decodeItems, hx, hd]⟩

/-- Decoding a channel fails when any of its `item` children fails. -/
theorem decodeChannel_error (x : Xml)
    (h : ∃ c ∈ x.children.filter (fun c => c.name = "item"), ∃ d, decodeItem c = .error d) :
    ∃ d, decodeChannel x = .error d := by
  unfold decodeChannel requiredField
  cases h1 : childText "title" x.children with
  | none => exact ⟨_, rfl⟩
  | some t =>
    cases h2 : childText "description" x.children with
    | none => exact ⟨_, rfl⟩
    | some ds =>
      cases h3 : childText "link" x.children with
      | none => exact ⟨_, rfl⟩
      | some lk =>
        obtain ⟨d, hd⟩ := decodeItems_error _ h
        rw [hd]
        exact ⟨d, rfl⟩

/-! ### Helper lemmas: fetch -/

/-- A non-2xx response is rejected with its status code; neither the parser
nor the body is consulted. -/
theorem fetch_rss_feed_non2xx {β : Type} (parseBody : β → Except String Rss)
    (r : HttpResponse β) (h : statusIsSuccess r.status = false) :
    fetch_rss_feed parseBody (.ok r) = .error (.unexpectedStatus r.status) := by
  simp [fetch_rss_feed, h]

/-- A parse failure on a 2xx response yields `ParseError` with the parser's
detail. -/
theorem fetch_rss_feed_parse_error {β : Type} (parseBody : β → Except String Rss)
    (r : HttpResponse β) (detail : String)
    (hs : statusIsSuccess r.status = true) (hp : parseBody r.body = .error detail) :
    fetch_rss_feed parseBody (.ok r) = .error (.parseError detail) := by
  simp [fetch_rss_feed, hs, hp]

/-! ### Claim theorems -/

/-- C1: `sanitize` removes every leftmost non-overlapping `<[^>]*>` match and
then replaces every literal `&nbsp;` by one ASCII space, with no other
change: the three quoted examples hold, tag removal happens before entity
replacement (`"&nbsp<>;"` becomes `" "`), and any string with no tag match
and no `&nbsp;` occurrence is returned unchanged. -/
theorem claim_C1_sanitize :
    remove_tags "<p>Hello <b>world</b>!</p>&nbsp;Test" = "Hello world! Test" ∧
    remove_tags "" = "" ∧
    remove_tags "no tags here" = "no tags here" ∧
    remove_tags "&nbsp<>;" = " " ∧
    (∀ text : String, noTag text.data = true → containsNbsp text.data = false →
      remove_tags text = text) := by
  refine ⟨by decide, by decide, by decide, by decide, ?_⟩
  intro text h1 h2
  unfold remove_tags
  rw [dropTags_of_noTag text.data h1, replaceNbsp_of_not_contains text.data h2]

/-- Witness for C1: the universally quantified part applied at `"a&amp;b"`,
whose hypotheses hold, showing also that no other entity is decoded. -/
theorem claim_C1_sanitize_witness :
    noTag "a&amp;b".data = true ∧ containsNbsp "a&amp;b".data = false ∧
    remove_tags "a&amp;b" = "a&amp;b" :=
  ⟨by decide, by decide, claim_C1_sanitize.2.2.2.2 "a&amp;b" (by decide) (by decide)⟩

/-- C7: the sanitizer is idempotent on every string. -/
theorem claim_C7_idempotent (s : String) :
    remove_tags (remove_tags s) = remove_tags s := by
  unfold remove_tags
  exact congrArg String.mk (sanitize_data_idem s.data)

/-- C9: the console input line is trimmed before being parsed as an unsigned
integer: `"  3  \n"` yields selection `3`, even though the untrimmed text is
not a valid number, and the trimmed text is exactly `"3"`. -/
theorem claim_C9_trimmed_input :
    get_category_input "  3  \n" = .ok 3 ∧
    rustTrim "  3  \n".data = ['3'] ∧
    parseU32 "  3  \n".data = none ∧
    get_category_input "3" = .ok 3 := by
  refine ⟨by decide, by decide, by decide, by decide⟩

/-- C8: on any string made only of well-formed, non-overlapping `<tag>`
spans interleaved with angle-bracket-free text, the sanitizer's output
contains neither `<` nor `>`. -/
theorem claim_C8_no_angle (s : String) (h : WellFormedTags s.data) :
    hasAngle (remove_tags s).data = false :=
  sanitize_wellFormed s.data h

/-- Witness for C8: the sanitizer applied to `"<p>Hi</p>!"`, which is built
from two tags and bracket-free text. -/
theorem claim_C8_no_angle_witness :
    hasAngle (remove_tags "<p>Hi</p>!").data = false := by
  have h1 : WellFormedTags ['!'] :=
    WellFormedTags.text (by decide) (by decide) WellFormedTags.nil
  have h2 : WellFormedTags ('<' :: (['/', 'p'] ++ '>' :: ['!'])) :=
    WellFormedTags.tag (by decide) h1
  have h3 : WellFormedTags ('i' :: '<' :: (['/', 'p'] ++ '>' :: ['!'])) :=
    WellFormedTags.text (by decide) (by decide) h2
  have h4 : WellFormedTags ('H' :: 'i' :: '<' :: (['/', 'p'] ++ '>' :: ['!'])) :=
    WellFormedTags.text (by decide) (by decide) h3
  have h5 : WellFormedTags
      ('<' :: (['p'] ++ '>' :: 'H' :: 'i' :: '<' :: (['/', 'p'] ++ '>' :: ['!']))) :=
    WellFormedTags.tag (by decide) h4
  exact claim_C8_no_angle "<p>Hi</p>!" h5

/-- C2: a successfully fetched feed is displayed as the channel's title,
link and description followed by one five-line block per item in document
order (title, link, sanitized description, publish date, fixed-width
separator): the output lines are exactly that concatenation, their number
is `3 + 5 * N` for `N` items, block `i` ends with the separator line, and a
successful fetch inside `run` yields exactly this display. -/
theorem claim_C2_display :
    (∀ rss : Rss, display_feed rss =
      ("\nTitle: " ++ rss.channel.title) ::
      ("Link: " ++ rss.channel.link) ::
      ("Description: " ++ rss.channel.description ++ "\n") ::
      rss.channel.items.flatMap (fun item =>
        ["Title: " ++ item.title,
         "Link: " ++ item.link,
         "Description: " ++ remove_tags item.description,
         "Published: " ++ item.pub_date ++ "\n",
         separatorLine])) ∧
    (∀ rss : Rss, (display_feed rss).length = 3 + 5 * rss.channel.items.length) ∧
    (∀ (rss : Rss) (i : Nat) (item : Item), rss.channel.items[i]? = some item →
      (display_feed rss)[3 + 5 * i + 4]? = some separatorLine) ∧
    (∀ (registry : Nat → Option String) (fetcher : String → Except FetchError Rss)
      (input : String) (n : Nat) (url : String) (rss : Rss),
      get_category_input input = .ok n → n ≠ 0 → registry n = some url →
      fetcher url = .ok rss → run registry fetcher input = .success (display_feed rss)) := by
  refine ⟨fun rss => rfl, fun rss => ?_, fun rss i item h => ?_, run_success⟩
  · simp only [display_feed, List.length_cons, flatMap_itemLines_length]
    omega
  · rw [display_feed_getElem rss i item 4 h (by omega)]
    rfl

/-- Witness for C2: a concrete one-item feed displayed through `run` with a
registry hit and a successful fetch; its single block ends with the
separator at index `3 + 5 * 0 + 4`. -/
theorem claim_C2_display_witness :
    get_category_input "1\n" = .ok 1 ∧
    run (fun _ => some "u") (fun _ => .ok exRss) "1\n" = .success (display_feed exRss) ∧
    exRss.channel.items[0]? = some exItem ∧
    (display_feed exRss)[3 + 5 * 0 + 4]? = some separatorLine :=
  ⟨by decide,
   claim_C2_display.2.2.2 (fun _ => some "u") (fun _ => .ok exRss) "1\n" 1 "u" exRss
     (by decide) (by decide) rfl rfl,
   rfl,
   claim_C2_display.2.2.1 exRss 0 exItem rfl⟩

/-- C10: only the item description passes through the sanitizer; the
channel's title, link and description and each item's title, link and
publish date are printed verbatim — in particular a channel description
containing markup and entities appears unmodified even though the sanitizer
would change it. -/
theorem claim_C10_verbatim :
    (∀ rss : Rss,
      (display_feed rss)[0]? = some ("\nTitle: " ++ rss.channel.title) ∧
      (display_feed rss)[1]? = some ("Link: " ++ rss.channel.link) ∧
      (display_feed rss)[2]? = some ("Description: " ++ rss.channel.description ++ "\n")) ∧
    (∀ (rss : Rss) (i : Nat) (item : Item), rss.channel.items[i]? = some item →
      (display_feed rss)[3 + 5 * i]? = some ("Title: " ++ item.title) ∧
      (display_feed rss)[3 + 5 * i + 1]? = some ("Link: " ++ item.link) ∧
      (display_feed rss)[3 + 5 * i + 2]? =
        some ("Description: " ++ remove_tags item.description) ∧
      (display_feed rss)[3 + 5 * i + 3]? =
        some ("Published: " ++ item.pub_date ++ "\n")) ∧
    ((display_feed ⟨⟨"T", "<b>x</b>&nbsp;", "L", []⟩⟩)[2]? =
      some ("Description: " ++ "<b>x</b>&nbsp;" ++ "\n") ∧
     remove_tags "<b>x</b>&nbsp;" ≠ "<b>x</b>&nbsp;") := by
  refine ⟨fun rss => ⟨by simp [display_feed], by simp [display_feed],
    by simp [display_feed]⟩, fun rss i item h => ?_, by decide, by decide⟩
  have h0 := display_feed_getElem rss i item 0 h (by omega)
  have h1 := display_feed_getElem rss i item 1 h (by omega)
  have h2 := display_feed_getElem rss i item 2 h (by omega)
  have h3 := display_feed_getElem rss i item 3 h (by omega)
  rw [show 3 + 5 * i = 3 + 5 * i + 0 by omega]
  exact ⟨h0, h1, h2, h3⟩

/-- Witness for C10: the indexed form applied to the concrete one-item feed,
whose description is sanitized while title, link and publish date appear
verbatim. -/
theorem claim_C10_verbatim_witness :
    exRss.channel.items[0]? = some exItem ∧
    (display_feed exRss)[3 + 5 * 0]? = some ("Title: " ++ exItem.title) ∧
    (display_feed exRss)[3 + 5 * 0 + 2]? =
      some ("Description: " ++ remove_tags exItem.description) ∧
    (display_feed exRss)[3 + 5 * 0 + 3]? =
      some ("Published: " ++ exItem.pub_date ++ "\n") :=
  ⟨rfl,
   (claim_C10_verbatim.2.1 exRss 0 exItem rfl).1,
   (claim_C10_verbatim.2.1 exRss 0 exItem rfl).2.2.1,
   (claim_C10_verbatim.2.1 exRss 0 exItem rfl).2.2.2⟩

/-- C3: every response with a non-2xx status code makes the fetch fail with
`UnexpectedStatus` carrying that code, and the outcome is independent of the
body and of the body parser — the body is never read or parsed, so no
`ParseError` can arise from a non-2xx response. -/
theorem claim_C3_non2xx :
    (∀ (β : Type) (parseBody : β → Except String Rss) (r : HttpResponse β),
      statusIsSuccess r.status = false →
      fetch_rss_feed parseBody (.ok r) = .error (.unexpectedStatus r.status)) ∧
    (∀ (β : Type) (p p' : β → Except String Rss) (code : Nat) (b b' : β),
      statusIsSuccess code = false →
      fetch_rss_feed p (.ok ⟨code, b⟩) = fetch_rss_feed p' (.ok ⟨code, b'⟩)) := by
  constructor
  · intro β parseBody r h
    exact fetch_rss_feed_non2xx parseBody r h
  · intro β p p' code b b' h
    rw [fetch_rss_feed_non2xx p ⟨code, b⟩ h, fetch_rss_feed_non2xx p' ⟨code, b'⟩ h]

/-- Witness for C3: a simulated 404 yields `UnexpectedStatus 404` even
though the parser would reject the body. -/
theorem claim_C3_non2xx_witness :
    statusIsSuccess 404 = false ∧
    fetch_rss_feed (fun _ : Option Xml => .error "boom") (.ok ⟨404, none⟩) =
      .error (.unexpectedStatus 404) :=
  ⟨by decide,
   claim_C3_non2xx.1 (Option Xml) (fun _ => .error "boom") ⟨404, none⟩ (by decide)⟩

/-- C4: on a 2xx response, any body-parse failure — a body that is not
well-formed XML, or a document whose items miss a required field — makes the
fetch fail with `ParseError`, and `run` then terminates with an error exit
instead of displaying anything, so no partial item list is printed. -/
theorem claim_C4_parse_error :
    (∀ (code : Nat) (doc : Option Xml) (detail : String),
      statusIsSuccess code = true → parse_rss_body doc = .error detail →
      fetch_rss_feed parse_rss_body (.ok ⟨code, doc⟩) = .error (.parseError detail)) ∧
    parse_rss_body none = .error "malformed XML" ∧
    (∀ x : Xml,
      (childText "title" x.children = none ∨ childText "link" x.children = none ∨
       childText "description" x.children = none ∨ childText "pubDate" x.children = none) →
      ∃ d, decodeItem x = .error d) ∧
    (∀ x : Xml,
      (∃ c ∈ x.children.filter (fun c => c.name = "item"), ∃ d, decodeItem c = .error d) →
      ∃ d, decodeChannel x = .error d) ∧
    (∀ (registry : Nat → Option String) (fetcher : String → Except FetchError Rss)
      (input : String) (n : Nat) (url : String) (detail : String),
      get_category_input input = .ok n → n ≠ 0 → registry n = some url →
      fetcher url = .error (.parseError detail) →
      run registry fetcher input = .errorExit (.fetchFailed (.parseError detail))) := by
  refine ⟨?_, rfl, decodeItem_missing, decodeChannel_error, ?_⟩
  · intro code doc detail hs hp
    exact fetch_rss_feed_parse_error parse_rss_body ⟨code, doc⟩ detail hs hp
  · intro registry fetcher input n url detail h hn hreg hf
    exact run_fetch_error registry fetcher input n url _ h hn hreg hf

/-- Witness for C4: a 200 response whose body is not well-formed XML fails
with `ParseError`; an item element missing `pubDate` fails to decode and
fails its channel; and `run` with a parse-failing fetcher exits with the
error instead of displaying. -/
theorem claim_C4_parse_error_witness :
    statusIsSuccess 200 = true ∧
    fetch_rss_feed parse_rss_body (.ok ⟨200, none⟩) =
      .error (.parseError "malformed XML") ∧
    childText "pubDate" exBadItem.children = none ∧
    (∃ d, decodeItem exBadItem = .error d) ∧
    (∃ d, decodeChannel exBadChannel = .error d) ∧
    run (fun _ => some "u") (fun _ => .error (.parseError "bad")) "1\n" =
      .errorExit (.fetchFailed (.parseError "bad")) := by
  refine ⟨by decide, ?_, by decide, ?_, ?_, ?_⟩
  · exact claim_C4_parse_error.1 200 none "malformed XML" (by decide) rfl
  · exact claim_C4_parse_error.2.2.1 exBadItem (by
      refine Or.inr (Or.inr (Or.inr ?_))
      decide)
  · refine claim_C4_parse_error.2.2.2.1 exBadChannel ?_
    refine ⟨exBadItem, ?_, ?_⟩
    · rw [show exBadChannel.children.filter (fun c => c.name = "item") = [exBadItem]
        from rfl]
      exact List.mem_singleton.mpr rfl
    · exact decodeItem_missing exBadItem (Or.inr (Or.inr (Or.inr (by decide))))
  · exact claim_C4_parse_error.2.2.2.2 (fun _ => some "u")
      (fun _ => .error (.parseError "bad")) "1\n" 1 "u" "bad" (by decide) (by decide)
      rfl rfl

/-- C5: the startup registry maps exactly the ids 1 through 8 to eight
distinct non-empty URLs; lookup succeeds exactly on 1..8 (in particular on 1
and 3) and any other parsed selection — 0 aside, which exits first — makes
`run` fail with `CategoryNotFound`. -/
theorem claim_C5_registry :
    (∀ id : Nat, (lookupCategory id).isSome = true ↔ (1 ≤ id ∧ id ≤ 8)) ∧
    category_urls.length = 8 ∧
    (category_urls.map Prod.snd).Nodup ∧
    (∀ u ∈ category_urls.map Prod.snd, u ≠ "") ∧
    lookupCategory 0 = none ∧
    lookupCategory 10 = none ∧
    (lookupCategory 1).isSome = true ∧
    (lookupCategory 3).isSome = true ∧
    (∀ (fetcher : String → Except FetchError Rss) (input : String) (id : Nat),
      get_category_input input = .ok id → id ≠ 0 → ¬(1 ≤ id ∧ id ≤ 8) →
      run lookupCategory fetcher input = .errorExit .categoryNotFound) := by
  refine ⟨lookupCategory_isSome_iff, by decide, by decide, by decide, by decide,
    by decide, by decide, by decide, ?_⟩
  intro fetcher input id h hid hrange
  exact run_miss lookupCategory fetcher input id h hid (lookupCategory_none id hrange)

/-- Witness for C5: lookup at 3 succeeds via the characterization, and the
out-of-range selection 10 terminates the session with `CategoryNotFound`. -/
theorem claim_C5_registry_witness :
    (lookupCategory 3).isSome = true ∧
    get_category_input "10\n" = .ok 10 ∧
    run lookupCategory (fun _ => .error (.transport "t")) "10\n" =
      .errorExit .categoryNotFound :=
  ⟨(claim_C5_registry.1 3).mpr (by decide),
   by decide,
   claim_C5_registry.2.2.2.2.2.2.2.2 (fun _ => .error (.transport "t")) "10\n" 10
     (by decide) (by decide) (by decide)⟩

/-- C6: whenever the console line parses to selection 0, the session
terminates immediately with exit status 0 and its outcome does not depend on
the registry or on the fetcher — no lookup and no fetch happen. -/
theorem claim_C6_exit_zero
    (registry registry' : Nat → Option String)
    (fetcher fetcher' : String → Except FetchError Rss) (input : String)
    (h : get_category_input input = .ok 0) :
    run registry fetcher input = .exitZero ∧
    run registry fetcher input = run registry' fetcher' input := by
  constructor
  · exact run_zero registry fetcher input h
  · rw [run_zero registry fetcher input h, run_zero registry' fetcher' input h]

/-- Witness for C6: the input line `"0\n"` exits with status 0 under the real
registry, and with a registry-free, fetcher-free world as well. -/
theorem claim_C6_exit_zero_witness :
    get_category_input "0\n" = .ok 0 ∧
    run lookupCategory (fun _ => .error (.transport "a")) "0\n" = .exitZero ∧
    run lookupCategory (fun _ => .error (.transport "a")) "0\n" =
      run (fun _ => none) (fun _ => .error (.transport "b")) "0\n" :=
  ⟨by decide,
   (claim_C6_exit_zero lookupCategory (fun _ => none)
     (fun _ => .error (.transport "a")) (fun _ => .error (.transport "b")) "0\n"
     (by decide)).1,
   (claim_C6_exit_zero lookupCategory (fun _ => none)
     (fun _ => .error (.transport "a")) (fun _ => .error (.transport "b")) "0\n"
     (by decide)).2⟩
